import Mathlib

/-!
Verification of the emoji keyword matcher of
`examples/agents/emoji-api/src/main.rs`: the three-pass matcher
`find_best_match` (exact, substring, Jaro-Winkler similarity) over the static
`EMOJI_MAP` table, and the `get_emoji` HTTP handler around it.

Strings are modelled as `List Char` (Rust `str` as a sequence of Unicode
scalar values), `f64` scores as exact rationals `ℚ`.
-/

set_option maxRecDepth 8000

attribute [local semireducible] Rat.mul Rat.inv Rat.add Rat.sub Rat.ofScientific

namespace EmojiApi

/-- ASCII lowercasing of a character sequence; models Rust `str::to_lowercase`,
which agrees with per-character ASCII lowering on ASCII text. -/
def lowerStr (s : List Char) : List Char := s.map Char.toLower

/-- Boolean test that the first sequence starts with the second; the anchored
step used to model Rust `str::contains`. -/
def leadsWith : List Char → List Char → Bool
  | _, [] => true
  | [], _ :: _ => false
  | a :: as, b :: bs => if a = b then leadsWith as bs else false

/-- Boolean substring containment: `hasSub hay pat` is true when `pat` occurs
contiguously inside `hay`; models Rust `str::contains` (byte containment of
valid UTF-8 coincides with character-sequence containment). -/
def hasSub : List Char → List Char → Bool
  | [], pat => pat.isEmpty
  | h :: t, pat => leadsWith (h :: t) pat || hasSub t pat

/-- Length of the longest common leading run of two character sequences. -/
def sharedStart : List Char → List Char → Nat
  | a :: as, b :: bs => if a = b then sharedStart as bs + 1 else 0
  | _, _ => 0

/-- State of the Jaro matching loop: consumed flags for the second string, the
match count, the transposition count, and the index of the previous match. -/
abbrev JaroState := List Bool × Nat × Nat × Nat

/-- One scan of `b` looking for the smallest index `j` in `[lo, hi]` holding a
character equal to `x` that is not yet consumed; the inner loop of the Jaro
matching phase. `j` is the index of the head of the remaining suffix. -/
def findJ : List Char → List Bool → Nat → Nat → Char → Nat → Option Nat
  | [], _, _, _, _, _ => none
  | c :: cs, consumed, lo, hi, x, j =>
    if lo ≤ j ∧ j ≤ hi ∧ c = x ∧ consumed.getD j false = false then some j
    else findJ cs consumed lo hi x (j + 1)

/-- Body of the outer loop of the Jaro matching phase, for the character `c` of
the first string at index `i`. -/
def jaroStep (b : List Char) (lb searchRange : Nat) (st : JaroState) (i : Nat)
    (c : Char) : JaroState :=
  let minBound := i - searchRange
  let maxBound := min (lb - 1) (i + searchRange)
  if maxBound < minBound then st
  else
    match findJ b st.1 minBound maxBound c 0 with
    | none => st
    | some j =>
      (st.1.set j true, st.2.1 + 1,
        (if j < st.2.2.2 then st.2.2.1 + 1 else st.2.2.1), j)

/-- The outer loop of the Jaro matching phase, walking the first string with
its running index. -/
def jaroAux (b : List Char) (lb searchRange : Nat) :
    List Char → Nat → JaroState → JaroState
  | [], _, st => st
  | c :: cs, i, st =>
    jaroAux b lb searchRange cs (i + 1) (jaroStep b lb searchRange st i c)

/-- Modelled from the spec: the Jaro similarity used by `find_best_match`
comes from the `strsim` crate, a dependency whose sources are not part of this
repository; it is reconstructed here from the spec's description of the metric
(a score in [0,1] built from character matches inside a bounded search window
and transpositions between them), with the crate's `f64` arithmetic carried
out exactly over `ℚ`. -/
def jaro (a b : List Char) : ℚ :=
  let la := a.length
  let lb := b.length
  if la = 0 ∧ lb = 0 then 1
  else if la = 0 ∨ lb = 0 then 0
  else
    let searchRange := max la lb / 2 - 1
    let st := jaroAux b lb searchRange a 0 (List.replicate lb false, 0, 0, 0)
    let m := st.2.1
    let t := st.2.2.1
    if m = 0 then 0
    else (1 / 3) * ((m : ℚ) / la + (m : ℚ) / lb + ((m : ℚ) - (t : ℚ)) / (m : ℚ))

/-- Modelled from the spec: `strsim::jaro_winkler` — the Jaro similarity
boosted towards 1 by one tenth per character of shared leading run ("rewarding
shared prefixes", per the spec's glossary), capped at 1. -/
def jaro_winkler (a b : List Char) : ℚ :=
  let jd := jaro a b
  let pl := sharedStart a b
  let v := jd + (1 / 10) * (pl : ℚ) * (1 - jd)
  if v ≤ 1 then v else 1

/-- An entry of the static emoji table: a (keyword, symbol) pair. -/
abbrev Entry := String × String

/-- A match result: (matched keyword, symbol, score). -/
abbrev MatchResult := String × String × ℚ

def EMOJI_MAP : List Entry := [
  ("taco", "ğŸŒ®"),
  ("burrito", "ğŸŒ¯"),
  ("pizza", "ğŸ•"),
  ("hamburger", "ğŸ”"),
  ("hotdog", "ğŸŒ­"),
  ("fries", "ğŸŸ"),
  ("popcorn", "ğŸ¿"),
  ("sandwich", "ğŸ¥ª"),
  ("bagel", "ğŸ¥¯"),
  ("pretzel", "ğŸ¥¨"),
  ("cheese", "ğŸ§€"),
  ("egg", "ğŸ¥š"),
  ("bacon", "ğŸ¥“"),
  ("steak", "ğŸ¥©"),
  ("chicken", "ğŸ—"),
  ("shrimp", "ğŸ¦"),
  ("sushi", "ğŸ£"),
  ("ramen", "ğŸœ"),
  ("spaghetti", "ğŸ"),
  ("rice", "ğŸš"),
  ("curry", "ğŸ›"),
  ("dumpling", "ğŸ¥Ÿ"),
  ("cookie", "ğŸª"),
  ("cake", "ğŸ‚"),
  ("pie", "ğŸ¥§"),
  ("chocolate", "ğŸ«"),
  ("candy", "ğŸ¬"),
  ("lollipop", "ğŸ­"),
  ("donut", "ğŸ©"),
  ("icecream", "ğŸ¦"),
  ("coffee", "â˜•"),
  ("tea", "ğŸµ"),
  ("beer", "ğŸº"),
  ("wine", "ğŸ·"),
  ("cocktail", "ğŸ¸"),
  ("juice", "ğŸ§ƒ"),
  ("milk", "ğŸ¥›"),
  ("water", "ğŸ’§"),
  ("apple", "ğŸ"),
  ("banana", "ğŸŒ"),
  ("orange", "ğŸŠ"),
  ("lemon", "ğŸ‹"),
  ("grape", "ğŸ‡"),
  ("watermelon", "ğŸ‰"),
  ("strawberry", "ğŸ“"),
  ("peach", "ğŸ‘"),
  ("cherry", "ğŸ’"),
  ("pineapple", "ğŸ"),
  ("coconut", "ğŸ¥¥"),
  ("avocado", "ğŸ¥‘"),
  ("broccoli", "ğŸ¥¦"),
  ("carrot", "ğŸ¥•"),
  ("corn", "ğŸŒ½"),
  ("pepper", "ğŸŒ¶ï¸"),
  ("mushroom", "ğŸ„"),
  ("tomato", "ğŸ…"),
  ("potato", "ğŸ¥”"),
  ("onion", "ğŸ§…"),
  ("garlic", "ğŸ§„"),
  ("dog", "ğŸ•"),
  ("cat", "ğŸˆ"),
  ("mouse", "ğŸ"),
  ("rabbit", "ğŸ‡"),
  ("fox", "ğŸ¦Š"),
  ("bear", "ğŸ»"),
  ("panda", "ğŸ¼"),
  ("koala", "ğŸ¨"),
  ("tiger", "ğŸ¯"),
  ("lion", "ğŸ¦"),
  ("cow", "ğŸ„"),
  ("pig", "ğŸ·"),
  ("frog", "ğŸ¸"),
  ("monkey", "ğŸ’"),
  ("chicken", "ğŸ”"),
  ("penguin", "ğŸ§"),
  ("bird", "ğŸ¦"),
  ("eagle", "ğŸ¦…"),
  ("owl", "ğŸ¦‰"),
  ("duck", "ğŸ¦†"),
  ("swan", "ğŸ¦¢"),
  ("parrot", "ğŸ¦œ"),
  ("flamingo", "ğŸ¦©"),
  ("whale", "ğŸ‹"),
  ("dolphin", "ğŸ¬"),
  ("shark", "ğŸ¦ˆ"),
  ("octopus", "ğŸ™"),
  ("fish", "ğŸŸ"),
  ("crab", "ğŸ¦€"),
  ("lobster", "ğŸ¦"),
  ("turtle", "ğŸ¢"),
  ("snake", "ğŸ"),
  ("lizard", "ğŸ¦"),
  ("crocodile", "ğŸŠ"),
  ("dinosaur", "ğŸ¦•"),
  ("dragon", "ğŸ‰"),
  ("butterfly", "ğŸ¦‹"),
  ("bee", "ğŸ"),
  ("ant", "ğŸœ"),
  ("ladybug", "ğŸ"),
  ("spider", "ğŸ•·ï¸"),
  ("scorpion", "ğŸ¦‚"),
  ("horse", "ğŸ´"),
  ("unicorn", "ğŸ¦„"),
  ("zebra", "ğŸ¦“"),
  ("giraffe", "ğŸ¦’"),
  ("elephant", "ğŸ˜"),
  ("rhino", "ğŸ¦"),
  ("hippo", "ğŸ¦›"),
  ("camel", "ğŸ«"),
  ("llama", "ğŸ¦™"),
  ("gorilla", "ğŸ¦"),
  ("sloth", "ğŸ¦¥"),
  ("otter", "ğŸ¦¦"),
  ("skunk", "ğŸ¦¨"),
  ("hedgehog", "ğŸ¦”"),
  ("bat", "ğŸ¦‡"),
  ("wolf", "ğŸº"),
  ("deer", "ğŸ¦Œ"),
  ("sun", "â˜€ï¸"),
  ("moon", "ğŸŒ™"),
  ("star", "â­"),
  ("cloud", "â˜ï¸"),
  ("rain", "ğŸŒ§ï¸"),
  ("snow", "â„ï¸"),
  ("lightning", "âš¡"),
  ("tornado", "ğŸŒªï¸"),
  ("rainbow", "ğŸŒˆ"),
  ("fire", "ğŸ”¥"),
  ("volcano", "ğŸŒ‹"),
  ("ocean", "ğŸŒŠ"),
  ("mountain", "ğŸ”ï¸"),
  ("tree", "ğŸŒ³"),
  ("flower", "ğŸŒ¸"),
  ("rose", "ğŸŒ¹"),
  ("tulip", "ğŸŒ·"),
  ("sunflower", "ğŸŒ»"),
  ("cactus", "ğŸŒµ"),
  ("leaf", "ğŸƒ"),
  ("clover", "ğŸ€"),
  ("earth", "ğŸŒ"),
  ("smile", "ğŸ˜Š"),
  ("laugh", "ğŸ˜‚"),
  ("love", "â¤ï¸"),
  ("heart", "â¤ï¸"),
  ("kiss", "ğŸ˜˜"),
  ("wink", "ğŸ˜‰"),
  ("cool", "ğŸ˜"),
  ("cry", "ğŸ˜¢"),
  ("angry", "ğŸ˜ "),
  ("sad", "ğŸ˜"),
  ("fear", "ğŸ˜¨"),
  ("surprise", "ğŸ˜²"),
  ("think", "ğŸ¤”"),
  ("sleep", "ğŸ˜´"),
  ("sick", "ğŸ¤®"),
  ("clown", "ğŸ¤¡"),
  ("ghost", "ğŸ‘»"),
  ("skull", "ğŸ’€"),
  ("alien", "ğŸ‘½"),
  ("robot", "ğŸ¤–"),
  ("poop", "ğŸ’©"),
  ("thumbsup", "ğŸ‘"),
  ("thumbsdown", "ğŸ‘"),
  ("clap", "ğŸ‘"),
  ("wave", "ğŸ‘‹"),
  ("pray", "ğŸ™"),
  ("muscle", "ğŸ’ª"),
  ("brain", "ğŸ§ "),
  ("eyes", "ğŸ‘€"),
  ("baby", "ğŸ‘¶"),
  ("soccer", "âš½"),
  ("basketball", "ğŸ€"),
  ("football", "ğŸˆ"),
  ("baseball", "âš¾"),
  ("tennis", "ğŸ¾"),
  ("volleyball", "ğŸ"),
  ("rugby", "ğŸ‰"),
  ("golf", "â›³"),
  ("bowling", "ğŸ³"),
  ("hockey", "ğŸ’"),
  ("skiing", "â›·ï¸"),
  ("surfing", "ğŸ„"),
  ("swimming", "ğŸŠ"),
  ("cycling", "ğŸš´"),
  ("running", "ğŸƒ"),
  ("boxing", "ğŸ¥Š"),
  ("wrestling", "ğŸ¤¼"),
  ("climbing", "ğŸ§—"),
  ("fishing", "ğŸ£"),
  ("camping", "ğŸ•ï¸"),
  ("rocket", "ğŸš€"),
  ("airplane", "âœˆï¸"),
  ("car", "ğŸš—"),
  ("bus", "ğŸšŒ"),
  ("train", "ğŸš†"),
  ("bicycle", "ğŸš²"),
  ("boat", "â›µ"),
  ("phone", "ğŸ“±"),
  ("computer", "ğŸ’»"),
  ("keyboard", "âŒ¨ï¸"),
  ("camera", "ğŸ“·"),
  ("book", "ğŸ“š"),
  ("pen", "ğŸ–Šï¸"),
  ("clock", "ğŸ•"),
  ("money", "ğŸ’°"),
  ("gem", "ğŸ’"),
  ("trophy", "ğŸ†"),
  ("medal", "ğŸ…"),
  ("crown", "ğŸ‘‘"),
  ("gift", "ğŸ"),
  ("balloon", "ğŸˆ"),
  ("party", "ğŸ‰"),
  ("music", "ğŸµ"),
  ("guitar", "ğŸ¸"),
  ("drum", "ğŸ¥"),
  ("dice", "ğŸ²"),
  ("puzzle", "ğŸ§©"),
  ("magnet", "ğŸ§²"),
  ("lock", "ğŸ”’"),
  ("key", "ğŸ”‘"),
  ("hammer", "ğŸ”¨"),
  ("shield", "ğŸ›¡ï¸"),
  ("sword", "âš”ï¸"),
  ("bomb", "ğŸ’£"),
  ("flag", "ğŸ"),
  ("warning", "âš ï¸"),
  ("check", "âœ…"),
  ("cross", "âŒ"),
  ("question", "â“"),
  ("exclamation", "â—"),
  ("100", "ğŸ’¯")
]

/-- Scan entries in table order and return the first entry satisfying `p`,
paired with the fixed score `sc`; models the first two loops of
`find_best_match`, which return out of a `for` over `EMOJI_MAP` at the first
hit. -/
def scanPass (p : Entry → Bool) (sc : ℚ) : List Entry → Option MatchResult
  | [] => none
  | e :: rest => if p e then some (e.1, e.2, sc) else scanPass p sc rest

/-- Pass 1 of `find_best_match`: the first entry whose keyword equals the
lowered query, with score 1. -/
def exactPass (table : List Entry) (ql : List Char) : Option MatchResult :=
  scanPass (fun e => decide (e.1.data = ql)) 1 table

/-- The condition of pass 2: the keyword contains the lowered query, or the
lowered query contains the keyword. -/
def subCond (ql : List Char) (e : Entry) : Bool :=
  hasSub e.1.data ql || hasSub ql e.1.data

/-- Pass 2 of `find_best_match`: the first entry related to the lowered query
by substring containment, with score 9/10. -/
def subPass (table : List Entry) (ql : List Char) : Option MatchResult :=
  scanPass (subCond ql) (9 / 10) table

/-- Pass 3 of `find_best_match`: fold over the table keeping the entry whose
keyword has the strictly greatest Jaro-Winkler similarity to the lowered
query (`if score > best.2`), threading the running best. -/
def simFold (ql : List Char) : List Entry → MatchResult → MatchResult
  | [], acc => acc
  | e :: rest, acc =>
    simFold ql rest
      (if acc.2.2 < jaro_winkler ql e.1.data then
        (e.1, e.2, jaro_winkler ql e.1.data)
      else acc)

/-- The three-pass matcher over an explicit table. The Rust `find_best_match`
reads the static `EMOJI_MAP`; the table is a parameter here so that the same
code can be stated over other tables (e.g. the empty one). The similarity
fold starts from the sentinel `("", "", 0)`. -/
def findBestMatchIn (table : List Entry) (query : String) : MatchResult :=
  let ql := lowerStr query.data
  match exactPass table ql with
  | some r => r
  | none =>
    match subPass table ql with
    | some r => r
    | none => simFold ql table ("", "", 0)

/-- Rust `find_best_match`: the matcher over the static emoji table. -/
def find_best_match (query : String) : MatchResult :=
  findBestMatchIn EMOJI_MAP query

/-- HTTP response of the `/emoji` handler, restricted to its observable data:
either a 400 error payload, or a 200 payload carrying the emoji, the matched
keyword and the rounded score. -/
inductive Response where
  | badRequest (error : String) : Response
  | ok (emoji : String) (matched_keyword : String) (score : ℚ) : Response
deriving DecidableEq

/-- Whitespace trimming of both ends; models Rust `str::trim` on ASCII text. -/
def trimL (s : List Char) : List Char :=
  ((s.dropWhile Char.isWhitespace).reverse.dropWhile Char.isWhitespace).reverse

/-- Rounding to three decimal places, as the handler does before serializing:
`(score * 1000.0).round() / 1000.0` (for the nonnegative scores produced
here, `f64::round` agrees with rounding half up). -/
def roundTo3 (s : ℚ) : ℚ := (round (s * 1000) : ℚ) / 1000

/-- Rust `get_emoji`: a missing query, or one that is empty after trimming,
is rejected with a 400 error; otherwise the untrimmed query is passed to
`find_best_match` and its result returned with the score rounded to three
decimals. -/
def get_emoji (q : Option String) : Response :=
  match q with
  | some s =>
    if (trimL s.data).isEmpty then
      Response.badRequest "query parameter `q` is required"
    else
      let r := find_best_match s
      Response.ok r.2.1 r.1 (roundTo3 r.2.2)
  | none => Response.badRequest "query parameter `q` is required"



/-- A scan returns `none` exactly when no entry satisfies the predicate. -/
theorem scanPass_eq_none (p : Entry → Bool) (sc : ℚ) (table : List Entry) :
    scanPass p sc table = none ↔ ∀ e ∈ table, p e = false := by
  induction table with
  | nil => simp [scanPass]
  | cons e rest ih =>
    by_cases hp : p e = true
    · simp [scanPass, hp]
    · have hp' : p e = false := by simpa using hp
      simp [scanPass, hp', ih]

/-- A scan that hits at the first satisfying index returns that entry with the
fixed score. -/
theorem scanPass_first (p : Entry → Bool) (sc : ℚ) (table : List Entry) (i : Nat)
    (hi : i < table.length) (hp : p (table.get ⟨i, hi⟩) = true)
    (hfirst : ∀ j (hj : j < i), p (table.get ⟨j, hj.trans hi⟩) = false) :
    scanPass p sc table = some ((table.get ⟨i, hi⟩).1, (table.get ⟨i, hi⟩).2, sc) := by
  induction table generalizing i with
  | nil => exact absurd hi (Nat.not_lt_zero i)
  | cons e rest ih =>
    cases i with
    | zero =>
      simp only [List.get] at hp ⊢
      simp [scanPass, hp]
    | succ n =>
      have h0 : p e = false := hfirst 0 (Nat.succ_pos n)
      have hn : n < rest.length := Nat.lt_of_succ_lt_succ hi
      have hrec := ih n hn hp (fun j hj => hfirst (j + 1) (Nat.succ_lt_succ hj))
      simpa [scanPass, h0] using hrec

/-- Whatever a scan returns is an entry of the table, paired with the fixed
score. -/
theorem scanPass_mem (p : Entry → Bool) (sc : ℚ) (table : List Entry)
    (r : MatchResult) (h : scanPass p sc table = some r) :
    ∃ e ∈ table, r = (e.1, e.2, sc) := by
  induction table with
  | nil => simp [scanPass] at h
  | cons e rest ih =>
    by_cases hp : p e = true
    · refine ⟨e, by simp, ?_⟩
      simp [scanPass, hp] at h
      exact h.symm
    · have hp' : p e = false := by simpa using hp
      simp only [scanPass, hp', Bool.false_eq_true, if_false] at h
      obtain ⟨e', he', hr⟩ := ih h
      exact ⟨e', by simp [he'], hr⟩

/-- If pass 1 hits, the matcher returns its result. -/
theorem findBestMatchIn_exact (table : List Entry) (q : String) (r : MatchResult)
    (h : exactPass table (lowerStr q.data) = some r) :
    findBestMatchIn table q = r := by
  simp [findBestMatchIn, h]

/-- If pass 1 misses and pass 2 hits, the matcher returns the result of
pass 2. -/
theorem findBestMatchIn_sub (table : List Entry) (q : String) (r : MatchResult)
    (h1 : exactPass table (lowerStr q.data) = none)
    (h2 : subPass table (lowerStr q.data) = some r) :
    findBestMatchIn table q = r := by
  simp [findBestMatchIn, h1, h2]

/-- If passes 1 and 2 miss, the matcher returns the similarity fold from the
sentinel. -/
theorem findBestMatchIn_sim (table : List Entry) (q : String)
    (h1 : exactPass table (lowerStr q.data) = none)
    (h2 : subPass table (lowerStr q.data) = none) :
    findBestMatchIn table q = simFold (lowerStr q.data) table ("", "", 0) := by
  simp [findBestMatchIn, h1, h2]

/-- If no keyword beats the accumulator, the similarity fold keeps it. -/
theorem simFold_const (ql : List Char) (table : List Entry) (acc : MatchResult)
    (h : ∀ e ∈ table, jaro_winkler ql e.1.data ≤ acc.2.2) :
    simFold ql table acc = acc := by
  induction table with
  | nil => rfl
  | cons e rest ih =>
    have h0 : ¬ acc.2.2 < jaro_winkler ql e.1.data := not_lt.mpr (h e (by simp))
    simp only [simFold, if_neg h0]
    exact ih (fun e' he' => h e' (by simp [he']))

/-- Behaviour of the similarity fold: the score never decreases, it bounds
every keyword's similarity from above, and the result is either the
accumulator or the first entry that strictly beat every earlier score. -/
theorem simFold_spec (ql : List Char) (table : List Entry) (acc : MatchResult) :
    acc.2.2 ≤ (simFold ql table acc).2.2 ∧
    (∀ e ∈ table, jaro_winkler ql e.1.data ≤ (simFold ql table acc).2.2) ∧
    (simFold ql table acc = acc ∨
      ∃ i, ∃ hi : i < table.length,
        simFold ql table acc =
          ((table.get ⟨i, hi⟩).1, (table.get ⟨i, hi⟩).2,
            jaro_winkler ql (table.get ⟨i, hi⟩).1.data) ∧
        acc.2.2 < (simFold ql table acc).2.2 ∧
        ∀ j (hj : j < i),
          jaro_winkler ql (table.get ⟨j, hj.trans hi⟩).1.data <
            (simFold ql table acc).2.2) := by
  induction table generalizing acc with
  | nil => simp [simFold]
  | cons e rest ih =>
    set s := jaro_winkler ql e.1.data with hs
    by_cases hlt : acc.2.2 < s
    · have hstep : simFold ql (e :: rest) acc = simFold ql rest (e.1, e.2, s) := by
        simp only [simFold, hs, if_pos hlt]
      obtain ⟨ihA, ihB, ihC⟩ := ih (e.1, e.2, s)
      rw [hstep]
      refine ⟨le_of_lt (lt_of_lt_of_le hlt ihA), ?_, ?_⟩
      · intro e' he'
        rcases List.mem_cons.mp he' with he' | he'
        · subst he'; exact ihA
        · exact ihB e' he'
      · rcases ihC with hC | ⟨i', hi', hC1, hC2, hC3⟩
        · refine Or.inr ⟨0, Nat.succ_pos _, ?_, ?_, ?_⟩
          · simpa using hC
          · rw [hC]; exact hlt
          · intro j hj; exact absurd hj (Nat.not_lt_zero j)
        · refine Or.inr ⟨i' + 1, Nat.succ_lt_succ hi', ?_, ?_, ?_⟩
          · simpa using hC1
          · exact lt_trans hlt hC2
          · intro j hj
            cases j with
            | zero => simpa using hC2
            | succ j' => exact hC3 j' (Nat.lt_of_succ_lt_succ hj)
    · have hle : s ≤ acc.2.2 := not_lt.mp hlt
      have hstep : simFold ql (e :: rest) acc = simFold ql rest acc := by
        simp only [simFold, hs, if_neg hlt]
      obtain ⟨ihA, ihB, ihC⟩ := ih acc
      rw [hstep]
      refine ⟨ihA, ?_, ?_⟩
      · intro e' he'
        rcases List.mem_cons.mp he' with he' | he'
        · subst he'; exact le_trans hle ihA
        · exact ihB e' he'
      · rcases ihC with hC | ⟨i', hi', hC1, hC2, hC3⟩
        · exact Or.inl hC
        · refine Or.inr ⟨i' + 1, Nat.succ_lt_succ hi', ?_, ?_, ?_⟩
          · simpa using hC1
          · exact hC2
          · intro j hj
            cases j with
            | zero => exact lt_of_le_of_lt hle hC2
            | succ j' => exact hC3 j' (Nat.lt_of_succ_lt_succ hj)

/-- Setting a fresh position to `true` bumps the `true` count by one. -/
theorem count_set_true (l : List Bool) (j : Nat) (hj : j < l.length)
    (hf : l.getD j false = false) :
    (l.set j true).count true = l.count true + 1 := by
  induction l generalizing j with
  | nil => simp at hj
  | cons b t ih =>
    cases j with
    | zero =>
      simp only [List.getD_cons_zero] at hf
      subst hf
      simp [List.count_cons]
    | succ n =>
      simp only [List.getD_cons_succ] at hf
      have hn : n < t.length := Nat.lt_of_succ_lt_succ hj
      simp only [List.set, List.count_cons, ih n hn hf]
      omega

/-- The inner scan only answers with an index inside the second string that is
not yet consumed. -/
theorem findJ_some (b : List Char) (consumed : List Bool) (lo hi : Nat) (x : Char)
    (j r : Nat) (h : findJ b consumed lo hi x j = some r) :
    j ≤ r ∧ r < j + b.length ∧ consumed.getD r false = false := by
  induction b generalizing j with
  | nil => simp [findJ] at h
  | cons c cs ih =>
    by_cases hc : lo ≤ j ∧ j ≤ hi ∧ c = x ∧ consumed.getD j false = false
    · simp only [findJ, if_pos hc, Option.some.injEq] at h
      subst h
      refine ⟨Nat.le_refl _, ?_, hc.2.2.2⟩
      have : 0 < (c :: cs).length := by simp
      omega
    · simp only [findJ, if_neg hc] at h
      obtain ⟨h1, h2, h3⟩ := ih (j + 1) h
      refine ⟨Nat.le_of_succ_le h1, ?_, h3⟩
      simpa [Nat.succ_add, Nat.add_comm, Nat.add_left_comm] using h2

/-- One step of the Jaro matching loop keeps the consumed-flag invariant: the
flag list keeps its length, the match count equals the number of consumed
positions, the transposition count stays below the match count, and the match
count grows by at most one. -/
theorem jaroStep_inv (b : List Char) (lb searchRange : Nat) (st : JaroState)
    (i : Nat) (c : Char) (hlb : lb = b.length)
    (hlen : st.1.length = lb) (hm : st.2.1 = st.1.count true)
    (ht : st.2.2.1 ≤ st.2.1) :
    (jaroStep b lb searchRange st i c).1.length = lb ∧
    (jaroStep b lb searchRange st i c).2.1 =
      (jaroStep b lb searchRange st i c).1.count true ∧
    (jaroStep b lb searchRange st i c).2.2.1 ≤
      (jaroStep b lb searchRange st i c).2.1 ∧
    st.2.1 ≤ (jaroStep b lb searchRange st i c).2.1 ∧
    (jaroStep b lb searchRange st i c).2.1 ≤ st.2.1 + 1 := by
  unfold jaroStep
  by_cases hb : min (lb - 1) (i + searchRange) < i - searchRange
  · simp only [if_pos hb]
    exact ⟨hlen, hm, ht, Nat.le_refl _, Nat.le_succ _⟩
  · simp only [if_neg hb]
    cases hfind : findJ b st.1 (i - searchRange) (min (lb - 1) (i + searchRange)) c 0 with
    | none => exact ⟨hlen, hm, ht, Nat.le_refl _, Nat.le_succ _⟩
    | some j =>
      obtain ⟨-, hjlt, hjf⟩ := findJ_some _ _ _ _ _ _ _ hfind
      have hjlen : j < st.1.length := by
        rw [hlen, hlb]
        simpa using hjlt
      refine ⟨?_, ?_, ?_, Nat.le_succ _, Nat.le_refl _⟩
      · simpa using hlen
      · rw [count_set_true st.1 j hjlen hjf, hm]
      · by_cases hj : j < st.2.2.2
        · simp only [if_pos hj]
          exact Nat.succ_le_succ ht
        · simp only [if_neg hj]
          exact Nat.le_succ_of_le ht

/-- The outer Jaro loop keeps the consumed-flag invariant, and the match count
grows by at most the number of characters walked. -/
theorem jaroAux_inv (b : List Char) (lb searchRange : Nat) (a : List Char)
    (i : Nat) (st : JaroState) (hlb : lb = b.length)
    (hlen : st.1.length = lb) (hm : st.2.1 = st.1.count true)
    (ht : st.2.2.1 ≤ st.2.1) :
    (jaroAux b lb searchRange a i st).1.length = lb ∧
    (jaroAux b lb searchRange a i st).2.1 =
      (jaroAux b lb searchRange a i st).1.count true ∧
    (jaroAux b lb searchRange a i st).2.2.1 ≤
      (jaroAux b lb searchRange a i st).2.1 ∧
    st.2.1 ≤ (jaroAux b lb searchRange a i st).2.1 ∧
    (jaroAux b lb searchRange a i st).2.1 ≤ st.2.1 + a.length := by
  induction a generalizing i st with
  | nil =>
    exact ⟨hlen, hm, ht, Nat.le_refl _, by simp [jaroAux]⟩
  | cons c cs ih =>
    obtain ⟨s1, s2, s3, s4, s5⟩ := jaroStep_inv b lb searchRange st i c hlb hlen hm ht
    obtain ⟨a1, a2, a3, a4, a5⟩ :=
      ih (i + 1) (jaroStep b lb searchRange st i c) s1 s2 s3
    refine ⟨a1, a2, a3, Nat.le_trans s4 a4, ?_⟩
    calc (jaroAux b lb searchRange cs (i + 1) (jaroStep b lb searchRange st i c)).2.1
        ≤ (jaroStep b lb searchRange st i c).2.1 + cs.length := a5
      _ ≤ (st.2.1 + 1) + cs.length := Nat.add_le_add_right s5 _
      _ = st.2.1 + (c :: cs).length := by simp [Nat.add_comm, Nat.add_assoc, Nat.add_left_comm]

/-- The match count of the Jaro loop is bounded by both string lengths, and
the transposition count by the match count. -/
theorem jaroLoop_bounds (a b : List Char) (searchRange : Nat) :
    (jaroAux b b.length searchRange a 0
      (List.replicate b.length false, 0, 0, 0)).2.1 ≤ a.length ∧
    (jaroAux b b.length searchRange a 0
      (List.replicate b.length false, 0, 0, 0)).2.1 ≤ b.length ∧
    (jaroAux b b.length searchRange a 0
      (List.replicate b.length false, 0, 0, 0)).2.2.1 ≤
      (jaroAux b b.length searchRange a 0
        (List.replicate b.length false, 0, 0, 0)).2.1 := by
  obtain ⟨a1, a2, a3, _, a5⟩ :=
    jaroAux_inv b b.length searchRange a 0 (List.replicate b.length false, 0, 0, 0)
      rfl (by simp) (by simp [List.count_replicate]) (Nat.le_refl 0)
  refine ⟨by simpa using a5, ?_, a3⟩
  calc (jaroAux b b.length searchRange a 0
        (List.replicate b.length false, 0, 0, 0)).2.1
      = _ := a2
    _ ≤ _ := List.count_le_length _ _
    _ = b.length := a1

/-- The Jaro similarity is nonnegative. -/
theorem jaro_nonneg (a b : List Char) : 0 ≤ jaro a b := by
  simp only [jaro]
  split_ifs with h1 h2 h3
  · exact zero_le_one
  · exact le_refl 0
  · exact le_refl 0
  · obtain ⟨hma, hmb, htm⟩ := jaroLoop_bounds a b (max a.length b.length / 2 - 1)
    set st := jaroAux b b.length (max a.length b.length / 2 - 1) a 0
      (List.replicate b.length false, 0, 0, 0) with hst
    have hm0 : (0 : ℚ) < (st.2.1 : ℚ) := by
      exact_mod_cast Nat.pos_of_ne_zero h3
    have hterm1 : (0 : ℚ) ≤ (st.2.1 : ℚ) / (a.length : ℚ) :=
      div_nonneg (by positivity) (by positivity)
    have hterm2 : (0 : ℚ) ≤ (st.2.1 : ℚ) / (b.length : ℚ) :=
      div_nonneg (by positivity) (by positivity)
    have hterm3 : (0 : ℚ) ≤ ((st.2.1 : ℚ) - (st.2.2.1 : ℚ)) / (st.2.1 : ℚ) := by
      apply div_nonneg _ (le_of_lt hm0)
      have : (st.2.2.1 : ℚ) ≤ (st.2.1 : ℚ) := by exact_mod_cast htm
      linarith
    linarith

/-- The Jaro similarity is at most one. -/
theorem jaro_le_one (a b : List Char) : jaro a b ≤ 1 := by
  simp only [jaro]
  split_ifs with h1 h2 h3
  · exact le_refl 1
  · exact zero_le_one
  · exact zero_le_one
  · obtain ⟨hma, hmb, htm⟩ := jaroLoop_bounds a b (max a.length b.length / 2 - 1)
    set st := jaroAux b b.length (max a.length b.length / 2 - 1) a 0
      (List.replicate b.length false, 0, 0, 0) with hst
    have hla : (0 : ℚ) < (a.length : ℚ) := by
      rcases Nat.eq_zero_or_pos a.length with h | h
      · exact absurd (Or.inl h) h2
      · exact_mod_cast h
    have hlb : (0 : ℚ) < (b.length : ℚ) := by
      rcases Nat.eq_zero_or_pos b.length with h | h
      · exact absurd (Or.inr h) h2
      · exact_mod_cast h
    have hm0 : (0 : ℚ) < (st.2.1 : ℚ) := by
      exact_mod_cast Nat.pos_of_ne_zero h3
    have hterm1 : (st.2.1 : ℚ) / (a.length : ℚ) ≤ 1 := by
      rw [div_le_one hla]
      exact_mod_cast hma
    have hterm2 : (st.2.1 : ℚ) / (b.length : ℚ) ≤ 1 := by
      rw [div_le_one hlb]
      exact_mod_cast hmb
    have hterm3 : ((st.2.1 : ℚ) - (st.2.2.1 : ℚ)) / (st.2.1 : ℚ) ≤ 1 := by
      rw [div_le_one hm0]
      have : (0 : ℚ) ≤ (st.2.2.1 : ℚ) := by positivity
      linarith
    linarith

/-- The Jaro-Winkler similarity is nonnegative. -/
theorem jaro_winkler_nonneg (a b : List Char) : 0 ≤ jaro_winkler a b := by
  simp only [jaro_winkler]
  have h0 := jaro_nonneg a b
  have h1 := jaro_le_one a b
  have hp : (0 : ℚ) ≤ (sharedStart a b : ℚ) := by positivity
  split_ifs with h
  · nlinarith
  · exact zero_le_one

/-- The Jaro-Winkler similarity is at most one. -/
theorem jaro_winkler_le_one (a b : List Char) : jaro_winkler a b ≤ 1 := by
  simp only [jaro_winkler]
  split_ifs with h
  · exact h
  · exact le_refl 1

/-- Unfolding of `find_best_match` to the table-parametric matcher. -/
theorem find_best_match_def (q : String) :
    find_best_match q = findBestMatchIn EMOJI_MAP q := rfl

/-- C1: for every query whose lower-cased form equals the keyword of the entry
at index `i` of `EMOJI_MAP` and of no earlier entry, `find_best_match` returns
that entry's keyword and symbol with score exactly 1; a keyword occurring
again later in the table (such as the second "chicken") is never the one
returned by the exact pass. -/
theorem exact_pass_first_match (q : String) (i : Nat)
    (hi : i < EMOJI_MAP.length)
    (hk : (EMOJI_MAP.get ⟨i, hi⟩).1.data = lowerStr q.data)
    (hfirst : ∀ j (hj : j < i),
      (EMOJI_MAP.get ⟨j, hj.trans hi⟩).1.data ≠ lowerStr q.data) :
    find_best_match q =
      ((EMOJI_MAP.get ⟨i, hi⟩).1, (EMOJI_MAP.get ⟨i, hi⟩).2, 1) := by
  apply findBestMatchIn_exact
  unfold exactPass
  exact scanPass_first _ 1 EMOJI_MAP i hi (decide_eq_true hk)
    (fun j hj => decide_eq_false (hfirst j hj))

/-- C1 witness: "chicken" occurs at indices 14 and 73 of the table; the
matcher returns the index-14 entry with score 1. -/
theorem exact_pass_first_match_witness :
    find_best_match "chicken" =
      ((EMOJI_MAP.get ⟨14, by decide⟩).1, (EMOJI_MAP.get ⟨14, by decide⟩).2, 1) :=
  exact_pass_first_match "chicken" 14 (by decide) (by decide) (by decide)

/-- C2: for every query equal to no keyword but related by substring
containment to the entry at index `i` and to no earlier entry,
`find_best_match` returns that entry with score exactly 9/10. -/
theorem substring_pass_first_match (q : String) (i : Nat)
    (hi : i < EMOJI_MAP.length)
    (hne : ∀ e ∈ EMOJI_MAP, e.1.data ≠ lowerStr q.data)
    (hc : subCond (lowerStr q.data) (EMOJI_MAP.get ⟨i, hi⟩) = true)
    (hfirst : ∀ j (hj : j < i),
      subCond (lowerStr q.data) (EMOJI_MAP.get ⟨j, hj.trans hi⟩) = false) :
    find_best_match q =
      ((EMOJI_MAP.get ⟨i, hi⟩).1, (EMOJI_MAP.get ⟨i, hi⟩).2, 9 / 10) := by
  apply findBestMatchIn_sub
  · unfold exactPass
    exact (scanPass_eq_none _ _ _).mpr (fun e he => decide_eq_false (hne e he))
  · unfold subPass
    exact scanPass_first _ _ EMOJI_MAP i hi hc hfirst

/-- C2 witness: "tacos" is an exact match for no keyword, and the first entry
related by containment is "taco" at index 0. -/
theorem substring_pass_first_match_witness :
    find_best_match "tacos" =
      ((EMOJI_MAP.get ⟨0, by decide⟩).1, (EMOJI_MAP.get ⟨0, by decide⟩).2, 9 / 10) :=
  substring_pass_first_match "tacos" 0 (by decide) (by decide) (by decide) (by decide)

/-- C3 counterexample: on the query "999" neither the exact nor the substring
pass fires and every keyword has Jaro-Winkler similarity 0, so the matcher
returns the sentinel ("", "", 0), whose keyword is not the keyword of any
entry of the table — in particular not of the first entry attaining the
maximal similarity, refuting the claim that the similarity pass always
returns such an entry. -/
theorem query_999_returns_sentinel :
    (∀ e ∈ EMOJI_MAP, e.1.data ≠ lowerStr "999".data) ∧
    (∀ e ∈ EMOJI_MAP, subCond (lowerStr "999".data) e = false) ∧
    find_best_match "999" = ("", "", 0) ∧
    ∀ e ∈ EMOJI_MAP, e.1 ≠ "" := by
  refine ⟨by decide, by decide, ?_, by decide⟩
  have h1 : exactPass EMOJI_MAP (lowerStr "999".data) = none := by decide
  have h2 : subPass EMOJI_MAP (lowerStr "999".data) = none := by decide
  have hz : ∀ e ∈ EMOJI_MAP,
      jaro_winkler (lowerStr "999".data) e.1.data = 0 := by decide
  rw [find_best_match_def, findBestMatchIn_sim _ _ h1 h2]
  exact simFold_const _ _ _ (fun e he => le_of_eq (hz e he))

/-- C3 amended: when no exact or substring match exists and some keyword has
positive similarity to the lower-cased query, `find_best_match` returns the
first entry in table order whose Jaro-Winkler similarity is maximal — an
entry with a score equal to the current best never replaces it; when every
similarity is 0 the sentinel is kept instead (see the counterexample). -/
theorem similarity_pass_first_argmax (q : String)
    (hne : ∀ e ∈ EMOJI_MAP, e.1.data ≠ lowerStr q.data)
    (hns : ∀ e ∈ EMOJI_MAP, subCond (lowerStr q.data) e = false)
    (hpos : ∃ e ∈ EMOJI_MAP, 0 < jaro_winkler (lowerStr q.data) e.1.data) :
    ∃ i, ∃ hi : i < EMOJI_MAP.length,
      find_best_match q =
        ((EMOJI_MAP.get ⟨i, hi⟩).1, (EMOJI_MAP.get ⟨i, hi⟩).2,
          jaro_winkler (lowerStr q.data) (EMOJI_MAP.get ⟨i, hi⟩).1.data) ∧
      (∀ e ∈ EMOJI_MAP,
        jaro_winkler (lowerStr q.data) e.1.data ≤
          jaro_winkler (lowerStr q.data) (EMOJI_MAP.get ⟨i, hi⟩).1.data) ∧
      ∀ j (hj : j < i),
        jaro_winkler (lowerStr q.data) (EMOJI_MAP.get ⟨j, hj.trans hi⟩).1.data <
          jaro_winkler (lowerStr q.data) (EMOJI_MAP.get ⟨i, hi⟩).1.data := by
  have h1 : exactPass EMOJI_MAP (lowerStr q.data) = none :=
    (scanPass_eq_none _ _ _).mpr (fun e he => decide_eq_false (hne e he))
  have h2 : subPass EMOJI_MAP (lowerStr q.data) = none :=
    (scanPass_eq_none _ _ _).mpr hns
  have h3 := findBestMatchIn_sim EMOJI_MAP q h1 h2
  obtain ⟨hA, hB, hC⟩ := simFold_spec (lowerStr q.data) EMOJI_MAP ("", "", 0)
  rcases hC with hC | ⟨i, hi, hC1, hC2, hC3⟩
  · obtain ⟨e, he, hepos⟩ := hpos
    have := hB e he
    rw [hC] at this
    exact absurd (lt_of_lt_of_le hepos this) (by norm_num)
  · refine ⟨i, hi, ?_, ?_, ?_⟩
    · rw [find_best_match_def, h3, hC1]
    · intro e he
      have := hB e he
      rw [hC1] at this
      exact this
    · intro j hj
      have := hC3 j hj
      rw [hC1] at this
      exact this

/-- C3 witness: on "chickem" the similarity pass runs and the first maximal
entry is returned. -/
theorem similarity_pass_first_argmax_witness :
    ∃ i, ∃ hi : i < EMOJI_MAP.length,
      find_best_match "chickem" =
        ((EMOJI_MAP.get ⟨i, hi⟩).1, (EMOJI_MAP.get ⟨i, hi⟩).2,
          jaro_winkler (lowerStr "chickem".data) (EMOJI_MAP.get ⟨i, hi⟩).1.data) ∧
      (∀ e ∈ EMOJI_MAP,
        jaro_winkler (lowerStr "chickem".data) e.1.data ≤
          jaro_winkler (lowerStr "chickem".data) (EMOJI_MAP.get ⟨i, hi⟩).1.data) ∧
      ∀ j (hj : j < i),
        jaro_winkler (lowerStr "chickem".data) (EMOJI_MAP.get ⟨j, hj.trans hi⟩).1.data <
          jaro_winkler (lowerStr "chickem".data) (EMOJI_MAP.get ⟨i, hi⟩).1.data :=
  similarity_pass_first_argmax "chickem" (by decide) (by decide) (by decide)

/-- C4 counterexample: "chickem" matches no keyword exactly or by substring,
yet the returned score is at least the similarity 101/105 of "chicken", hence
not strictly below 9/10. -/
theorem chickem_not_below_nine_tenths :
    (∀ e ∈ EMOJI_MAP, e.1.data ≠ lowerStr "chickem".data) ∧
    (∀ e ∈ EMOJI_MAP, subCond (lowerStr "chickem".data) e = false) ∧
    ¬ ((find_best_match "chickem").2.2 < 9 / 10) := by
  refine ⟨by decide, by decide, ?_⟩
  have h1 : exactPass EMOJI_MAP (lowerStr "chickem".data) = none := by decide
  have h2 : subPass EMOJI_MAP (lowerStr "chickem".data) = none := by decide
  have h3 := findBestMatchIn_sim EMOJI_MAP "chickem" h1 h2
  obtain ⟨hA, hB, hC⟩ := simFold_spec (lowerStr "chickem".data) EMOJI_MAP ("", "", 0)
  have hmem : EMOJI_MAP.get ⟨14, by decide⟩ ∈ EMOJI_MAP := EMOJI_MAP.get_mem _ _
  have hjw : jaro_winkler (lowerStr "chickem".data)
      (EMOJI_MAP.get ⟨14, by decide⟩).1.data = 101 / 105 := by decide
  have hge := hB _ hmem
  rw [hjw] at hge
  intro hlt
  rw [find_best_match_def, h3] at hlt
  have hcon : (101 : ℚ) / 105 < 9 / 10 := lt_of_le_of_lt hge hlt
  norm_num at hcon

/-- C4 amended: with no exact and no substring match, the returned score is
the least upper bound of the table's Jaro-Winkler similarities — it bounds
every similarity and equals 0 or one of them — but it is not in general
strictly below 9/10. -/
theorem similarity_score_is_lub (q : String)
    (hne : ∀ e ∈ EMOJI_MAP, e.1.data ≠ lowerStr q.data)
    (hns : ∀ e ∈ EMOJI_MAP, subCond (lowerStr q.data) e = false) :
    (∀ e ∈ EMOJI_MAP,
      jaro_winkler (lowerStr q.data) e.1.data ≤ (find_best_match q).2.2) ∧
    ((find_best_match q).2.2 = 0 ∨
      ∃ e ∈ EMOJI_MAP,
        (find_best_match q).2.2 = jaro_winkler (lowerStr q.data) e.1.data) := by
  have h1 : exactPass EMOJI_MAP (lowerStr q.data) = none :=
    (scanPass_eq_none _ _ _).mpr (fun e he => decide_eq_false (hne e he))
  have h2 : subPass EMOJI_MAP (lowerStr q.data) = none :=
    (scanPass_eq_none _ _ _).mpr hns
  have h3 := findBestMatchIn_sim EMOJI_MAP q h1 h2
  rw [find_best_match_def, h3]
  obtain ⟨hA, hB, hC⟩ := simFold_spec (lowerStr q.data) EMOJI_MAP ("", "", 0)
  refine ⟨hB, ?_⟩
  rcases hC with hC | ⟨i, hi, hC1, hC2, hC3⟩
  · rw [hC]
    exact Or.inl rfl
  · refine Or.inr ⟨EMOJI_MAP.get ⟨i, hi⟩, EMOJI_MAP.get_mem _ _, ?_⟩
    rw [hC1]

/-- C4 witness: instantiated at "chickem". -/
theorem similarity_score_is_lub_witness :
    (∀ e ∈ EMOJI_MAP,
      jaro_winkler (lowerStr "chickem".data) e.1.data ≤
        (find_best_match "chickem").2.2) ∧
    ((find_best_match "chickem").2.2 = 0 ∨
      ∃ e ∈ EMOJI_MAP,
        (find_best_match "chickem").2.2 =
          jaro_winkler (lowerStr "chickem".data) e.1.data) :=
  similarity_score_is_lub "chickem" (by decide) (by decide)

/-- C5 counterexample: on "tacoo" the substring pass fires ("tacoo" contains
the keyword "taco"), so the similarity pass is not reached and the score is
exactly 9/10 — not strictly below it as claimed. -/
theorem tacoo_substring_counterexample :
    subPass EMOJI_MAP (lowerStr "tacoo".data) =
      some ((EMOJI_MAP.get ⟨0, by decide⟩).1, (EMOJI_MAP.get ⟨0, by decide⟩).2, 9 / 10) ∧
    ¬ ((find_best_match "tacoo").2.2 < 9 / 10) := by
  exact ⟨by decide, by decide⟩

/-- C5 amended: on "tacoo" the exact pass misses, the substring pass fires,
and the matcher returns the "taco" entry with score exactly 9/10. -/
theorem tacoo_substring_result :
    exactPass EMOJI_MAP (lowerStr "tacoo".data) = none ∧
    find_best_match "tacoo" =
      ((EMOJI_MAP.get ⟨0, by decide⟩).1, (EMOJI_MAP.get ⟨0, by decide⟩).2, 9 / 10) := by
  exact ⟨by decide, by decide⟩

/-- C6: for every query, the score returned by `find_best_match` lies in the
closed interval [0, 1]. -/
theorem score_in_unit_interval (q : String) :
    0 ≤ (find_best_match q).2.2 ∧ (find_best_match q).2.2 ≤ 1 := by
  rw [find_best_match_def]
  cases h1 : exactPass EMOJI_MAP (lowerStr q.data) with
  | some r =>
    rw [findBestMatchIn_exact _ _ _ h1]
    obtain ⟨e, he, hr⟩ := scanPass_mem _ _ _ _ h1
    rw [hr]
    norm_num
  | none =>
    cases h2 : subPass EMOJI_MAP (lowerStr q.data) with
    | some r =>
      rw [findBestMatchIn_sub _ _ _ h1 h2]
      obtain ⟨e, he, hr⟩ := scanPass_mem _ _ _ _ h2
      rw [hr]
      norm_num
    | none =>
      rw [findBestMatchIn_sim _ _ h1 h2]
      obtain ⟨hA, hB, hC⟩ := simFold_spec (lowerStr q.data) EMOJI_MAP ("", "", 0)
      rcases hC with hC | ⟨i, hi, hC1, hC2, hC3⟩
      · rw [hC]
        norm_num
      · rw [hC1]
        exact ⟨jaro_winkler_nonneg _ _, jaro_winkler_le_one _ _⟩

/-- C7: the matcher is deterministic — two invocations on equal query strings
(over the one fixed table) return identical (keyword, symbol, score)
triples. -/
theorem matcher_deterministic (q q' : String) (h : q = q') :
    find_best_match q = find_best_match q' := by rw [h]

/-- C7 witness: two invocations on "taco" agree. -/
theorem matcher_deterministic_witness :
    find_best_match "taco" = find_best_match "taco" :=
  matcher_deterministic "taco" "taco" rfl

/-- C8: a missing query, or one that trims to empty, is answered with the 400
error payload and no match result; any other query is passed (untrimmed) to
`find_best_match`, whose result is returned with the score rounded to three
decimals. -/
theorem handler_blank_query (oq : Option String) :
    ((oq = none ∨ ∃ s, oq = some s ∧ trimL s.data = []) →
      get_emoji oq = Response.badRequest "query parameter `q` is required") ∧
    (∀ s, oq = some s → trimL s.data ≠ [] →
      get_emoji oq =
        Response.ok (find_best_match s).2.1 (find_best_match s).1
          (roundTo3 (find_best_match s).2.2)) := by
  constructor
  · rintro (rfl | ⟨s, rfl, hs⟩)
    · rfl
    · simp [get_emoji, List.isEmpty_iff, hs]
  · rintro s rfl hs
    simp [get_emoji, List.isEmpty_iff, hs]

/-- C8 witness: a whitespace-only query is rejected; "taco" is answered with
the matcher's result. -/
theorem handler_blank_query_witness :
    get_emoji (some "   ") = Response.badRequest "query parameter `q` is required" ∧
    get_emoji (some "taco") =
      Response.ok (find_best_match "taco").2.1 (find_best_match "taco").1
        (roundTo3 (find_best_match "taco").2.2) :=
  ⟨(handler_blank_query (some "   ")).1 (Or.inr ⟨"   ", rfl, by decide⟩),
   (handler_blank_query (some "taco")).2 "taco" rfl (by decide)⟩

/-- C9: neither the handler nor the matcher trims the query: on " taco " the
exact pass fails, the substring pass fires at the first entry, and the
handler (whose trimmed-nonempty guard passes) returns that result with score
exactly 9/10 rather than 1. -/
theorem untrimmed_whitespace_query :
    exactPass EMOJI_MAP (lowerStr " taco ".data) = none ∧
    subPass EMOJI_MAP (lowerStr " taco ".data) =
      some ((EMOJI_MAP.get ⟨0, by decide⟩).1, (EMOJI_MAP.get ⟨0, by decide⟩).2, 9 / 10) ∧
    find_best_match " taco " =
      ((EMOJI_MAP.get ⟨0, by decide⟩).1, (EMOJI_MAP.get ⟨0, by decide⟩).2, 9 / 10) ∧
    get_emoji (some " taco ") =
      Response.ok (EMOJI_MAP.get ⟨0, by decide⟩).2 (EMOJI_MAP.get ⟨0, by decide⟩).1 (9 / 10) := by
  refine ⟨by decide, by decide, by decide, ?_⟩
  have hne : ¬ (trimL (" taco ").data).isEmpty = true := by decide
  have hr : find_best_match " taco " =
      ((EMOJI_MAP.get ⟨0, by decide⟩).1, (EMOJI_MAP.get ⟨0, by decide⟩).2, 9 / 10) := by decide
  simp only [get_emoji, hne, if_false, Bool.false_eq_true, hr]
  have : roundTo3 (9 / 10) = 9 / 10 := by
    unfold roundTo3
    norm_num [round_eq]
  rw [this]

/-- C10: over any table, when no exact or substring match exists and every
keyword has similarity exactly 0 — in particular over the empty table — the
matcher returns the sentinel ("", "", 0); in every other case the returned
(keyword, symbol) pair is an entry of the table; and no entry of `EMOJI_MAP`
has an empty keyword or symbol, so the sentinel is recognizable. -/
theorem sentinel_iff_all_zero :
    (∀ (table : List Entry) (q : String),
      (∀ e ∈ table, e.1.data ≠ lowerStr q.data) →
      (∀ e ∈ table, subCond (lowerStr q.data) e = false) →
      (∀ e ∈ table, jaro_winkler (lowerStr q.data) e.1.data = 0) →
      findBestMatchIn table q = ("", "", 0)) ∧
    (∀ (table : List Entry) (q : String),
      ((∃ e ∈ table, e.1.data = lowerStr q.data) ∨
       (∃ e ∈ table, subCond (lowerStr q.data) e = true) ∨
       (∃ e ∈ table, jaro_winkler (lowerStr q.data) e.1.data ≠ 0)) →
      ∃ e ∈ table,
        (findBestMatchIn table q).1 = e.1 ∧ (findBestMatchIn table q).2.1 = e.2) ∧
    (∀ e ∈ EMOJI_MAP, e.1 ≠ "" ∧ e.2 ≠ "") := by
  refine ⟨?_, ?_, by decide⟩
  · intro table q hne hns hz
    have h1 : exactPass table (lowerStr q.data) = none :=
      (scanPass_eq_none _ _ _).mpr (fun e he => decide_eq_false (hne e he))
    have h2 : subPass table (lowerStr q.data) = none :=
      (scanPass_eq_none _ _ _).mpr hns
    rw [findBestMatchIn_sim _ _ h1 h2]
    exact simFold_const _ _ _ (fun e he => le_of_eq (hz e he))
  · intro table q hsome
    cases h1 : exactPass table (lowerStr q.data) with
    | some r =>
      rw [findBestMatchIn_exact _ _ _ h1]
      obtain ⟨e, he, hr⟩ := scanPass_mem _ _ _ _ h1
      exact ⟨e, he, by rw [hr], by rw [hr]⟩
    | none =>
      cases h2 : subPass table (lowerStr q.data) with
      | some r =>
        rw [findBestMatchIn_sub _ _ _ h1 h2]
        obtain ⟨e, he, hr⟩ := scanPass_mem _ _ _ _ h2
        exact ⟨e, he, by rw [hr], by rw [hr]⟩
      | none =>
        rw [findBestMatchIn_sim _ _ h1 h2]
        have hne : ∀ e ∈ table, ¬ e.1.data = lowerStr q.data := by
          intro e he
          exact of_decide_eq_false ((scanPass_eq_none _ _ _).mp h1 e he)
        have hns : ∀ e ∈ table, subCond (lowerStr q.data) e = false :=
          (scanPass_eq_none _ _ _).mp h2
        obtain ⟨hA, hB, hC⟩ := simFold_spec (lowerStr q.data) table ("", "", 0)
        rcases hC with hC | ⟨i, hi, hC1, hC2, hC3⟩
        · exfalso
          rcases hsome with ⟨e, he, hx⟩ | ⟨e, he, hx⟩ | ⟨e, he, hx⟩
          · exact hne e he hx
          · rw [hns e he] at hx
            exact Bool.false_ne_true hx
          · have hle := hB e he
            rw [hC] at hle
            exact hx (le_antisymm hle (jaro_winkler_nonneg _ _))
        · exact ⟨table.get ⟨i, hi⟩, table.get_mem _ _, by rw [hC1], by rw [hC1]⟩

/-- C10 witness: on "999" (no exact match, no containment, all similarities
0) the matcher returns the sentinel. -/
theorem sentinel_iff_all_zero_witness :
    findBestMatchIn EMOJI_MAP "999" = ("", "", 0) :=
  sentinel_iff_all_zero.1 EMOJI_MAP "999" (by decide) (by decide) (by decide)

end EmojiApi
